import Mathlib

/-!
Verification of the toolchain-resolution and directory-staging logic of the
`luajit-src` build shim (`src/lib.rs`), via a shallow embedding in Lean.

The embedding models:
* the `Build` configuration structure and its `cmd_make` / `try_build` dispatch;
* the environment-variable assembly performed by `build_unix` for the spawned
  `make` process (deployment-target pinning, `TARGET_SYS`, `HOST_CC`,
  `STATIC_CC`, `TARGET_LD`, `TARGET_AR`, `TARGET_STRIP`, `BUILDMODE`,
  `XCFLAGS`), including the cross-toolchain inference chain;
* the staging steps (cleanup, recursive copy skipping `.git`, release-marker
  copy and permission fix) as explicit effect traces;
* `cp_r` as a transformer on a path-indexed file-system model;
* `Artifacts::make`, the artifact collector.

External collaborators (the `cc` crate's compiler probe, `which` lookups, the
on-disk file system) are modelled as explicit function parameters, so every
definition is executable on concrete inputs.
-/

namespace LuajitSrc

/-! ## String utilities mirroring the Rust `str`/`Path` operations used -/

/-- Boolean prefix test on character lists (`str::starts_with` shape). -/
def startsWithL : List Char → List Char → Bool
  | [], _ => true
  | _ :: _, [] => false
  | a :: as, b :: bs => a == b && startsWithL as bs

/-- Boolean substring test on character lists (`str::contains`). -/
def infixB (needle : List Char) : List Char → Bool
  | [] => startsWithL needle []
  | c :: rest => startsWithL needle (c :: rest) || infixB needle rest

/-- Models `hay.contains(needle)` for Rust strings. -/
def containsSub (hay needle : String) : Bool := infixB needle.data hay.data

/-- Models `s.ends_with(suf)` for Rust strings. -/
def strEndsWith (s suf : String) : Bool := startsWithL suf.data.reverse s.data.reverse

/-- Models the slice `&s[..s.len() - n]`: drop the final `n` characters. -/
def strDropRight (s : String) (n : Nat) : String := ⟨s.data.take (s.data.length - n)⟩

/-- Models `Path::parent` for a slash-separated path (drop the final component). -/
def parentDir (p : String) : String :=
  ⟨((p.data.reverse.dropWhile (fun c => c != '/')).drop 1).reverse⟩

/-- Models `Path::join` for slash-separated paths. -/
def pjoin (d n : String) : String := d ++ "/" ++ n

/-- First-match association lookup, modelling environment-variable lookup
(`env::var_os` / `env::var` presence and value). -/
def envGet : List (String × String) → String → Option String
  | [], _ => none
  | (k, v) :: rest, key => if k = key then some v else envGet rest key

/-! ## The `Build` configuration (fields of `struct Build`) -/

/-- The `Build` configuration structure from `src/lib.rs`. -/
structure Build where
  out_dir : Option String
  target : Option String
  host : Option String
  lua52compat : Bool
  debug : Option Bool

/-- Fatal outcomes: `panic` models `panic!`/`expect`/`unwrap` aborts, `err`
models recoverable `Result::Err` values propagated with `?`. -/
inductive BuildErr where
  | panic (msg : String)
  | err (msg : String)
deriving DecidableEq

/-- Models `Build::cmd_make`: selects the make driver from the host triple, panicking
when the host is absent (modelled as `none`). -/
def cmd_make (host : Option String) : Option String :=
  match host with
  | none => none
  | some h =>
    if h = "x86_64-unknown-dragonfly" then some "gmake"
    else if h = "x86_64-unknown-freebsd" then some "gmake"
    else some "make"

/-- Which build routine `Build::try_build` dispatches to. -/
inductive PathKind where
  | unix
  | msvc
deriving DecidableEq

/-- The dispatch of `Build::try_build`: targets containing "msvc" go to
`build_msvc`, all others to `build_unix`; a missing target panics. -/
def tryBuildPath (b : Build) : Except BuildErr PathKind :=
  match b.target with
  | none => Except.error (BuildErr.panic "TARGET is not set")
  | some t => Except.ok (if containsSub t "msvc" then PathKind.msvc else PathKind.unix)

/-- The positional arguments `build_msvc` passes to `msvcbuild.bat`. -/
def msvcbuildArgs (lua52compat : Bool) : List String :=
  (if lua52compat then ["lua52compat"] else []) ++ ["static"]

/-! ## Toolchain resolution (`build_unix`, lines 139–246) -/

/-- What the `cc` crate's compiler probe reports for the target compiler:
its path, its default flags (`cflags_env`), and its family classification. -/
structure CompilerInfo where
  path : String
  cflags : String
  isLikeClang : Bool
  isLikeGnu : Bool

/-- The ambient system: which paths are existing files (`Path::is_file`) and
what a search-path lookup (`which::which`) resolves a name to. -/
structure SysModel where
  isFile : String → Bool
  whichLookup : String → Option String

/-- Cross-prefix inference (lines 174–180): a compiler path ending in
`-gcc` keeps everything but the trailing `gcc`; one ending in `-clang`
keeps everything but the trailing `clang`; otherwise the prefix is empty. -/
def inferPfx (compilerPath : String) : String :=
  if strEndsWith compilerPath "-gcc" then strDropRight compilerPath 3
  else if strEndsWith compilerPath "-clang" then strDropRight compilerPath 5
  else ""

/-- The archiver lookup chain (lines 197–207): `pfx ++ "ar"` beside the
compiler, then `llvm-ar` there for Clang-like compilers, then `ar` there for
GNU-like compilers, then a search-path lookup of `pfx ++ "ar"`; `none` means
the chain panics. -/
def findAr (sys : SysModel) (ci : CompilerInfo) (bindir pfx : String) : Option String :=
  if sys.isFile (pjoin bindir (pfx ++ "ar")) = true then some (pjoin bindir (pfx ++ "ar"))
  else if ci.isLikeClang = true ∧ sys.isFile (pjoin bindir "llvm-ar") = true then
    some (pjoin bindir "llvm-ar")
  else if ci.isLikeGnu = true ∧ sys.isFile (pjoin bindir "ar") = true then
    some (pjoin bindir "ar")
  else sys.whichLookup (pfx ++ "ar")

/-- The strip lookup chain (lines 214–224), same shape as `findAr`. -/
def findStrip (sys : SysModel) (ci : CompilerInfo) (bindir pfx : String) : Option String :=
  if sys.isFile (pjoin bindir (pfx ++ "strip")) = true then some (pjoin bindir (pfx ++ "strip"))
  else if ci.isLikeClang = true ∧ sys.isFile (pjoin bindir "llvm-strip") = true then
    some (pjoin bindir "llvm-strip")
  else if ci.isLikeGnu = true ∧ sys.isFile (pjoin bindir "strip") = true then
    some (pjoin bindir "strip")
  else sys.whichLookup (pfx ++ "strip")

/-- Everything `build_unix` consults when assembling the `make` environment:
the (present) target, the caller's process environment, what the `cc` crate
reports for the target compiler and for the host compiler, the ambient
system, and the resolved compat/debug flags. -/
structure UnixInputs where
  target : String
  callerEnv : List (String × String)
  ci : CompilerInfo
  hostCompilerPath : String
  sys : SysModel
  lua52compat : Bool
  debug : Bool

/-- The `match target` block of lines 148–162: Apple deployment-target
pinning (only when the variable is absent from the caller's environment) or
a `TARGET_SYS` hint from substring matching. -/
def targetEnvBase (target : String) (callerEnv : List (String × String)) :
    List (String × String) :=
  if target = "x86_64-apple-darwin" ∧ envGet callerEnv "MACOSX_DEPLOYMENT_TARGET" = none then
    [("MACOSX_DEPLOYMENT_TARGET", "10.14")]
  else if target = "aarch64-apple-darwin" ∧ envGet callerEnv "MACOSX_DEPLOYMENT_TARGET" = none then
    [("MACOSX_DEPLOYMENT_TARGET", "11.0")]
  else if containsSub target "linux" then [("TARGET_SYS", "Linux")]
  else if containsSub target "windows" then [("TARGET_SYS", "Windows")]
  else []

/-- The `XCFLAGS` value (lines 228–241): always `-fPIC`, plus the compat
define and, in debug mode, the assert/apicheck defines. -/
def xcflagsValue (lua52compat debug : Bool) : String :=
  String.intercalate " "
    (["-fPIC"] ++ (if lua52compat then ["-DLUAJIT_ENABLE_LUA52COMPAT"] else []) ++
      (if debug then ["-DLUA_USE_ASSERT", "-DLUA_USE_APICHECK"] else []))

/-- The 32-bit cross-compilation special case (lines 164–169): `HOST_CC` is
set (to the host compiler plus `-m32`) only when the target pointer width is
32 and the caller did not supply `HOST_CC`. -/
def hostccEnv (i : UnixInputs) (tpw : String) : List (String × String) :=
  if tpw = "32" ∧ envGet i.callerEnv "HOST_CC" = none then
    [("HOST_CC", i.hostCompilerPath ++ " -m32")]
  else []

/-- The `STATIC_CC` block (lines 188–190): set only when absent from the caller's
environment, to the resolved compiler path followed by its default flags. -/
def staticCcEnv (i : UnixInputs) (resolved : String) : List (String × String) :=
  if envGet i.callerEnv "STATIC_CC" = none then
    [("STATIC_CC", resolved ++ " " ++ i.ci.cflags)]
  else []

/-- The `TARGET_LD` block (lines 191–193), same value and guard shape as `STATIC_CC`. -/
def ldEnv (i : UnixInputs) (resolved : String) : List (String × String) :=
  if envGet i.callerEnv "TARGET_LD" = none then
    [("TARGET_LD", resolved ++ " " ++ i.ci.cflags)]
  else []

/-- The `TARGET_AR` block (lines 196–210): when absent from the caller's environment,
run the archiver lookup chain — panicking when it finds nothing — and set
the variable to the found archiver suffixed with " rcus". -/
def arEnv (i : UnixInputs) (bindir pfx : String) :
    Except BuildErr (List (String × String)) :=
  if envGet i.callerEnv "TARGET_AR" = none then
    match findAr i.sys i.ci bindir pfx with
    | none => Except.error (BuildErr.panic ("cannot find " ++ pfx ++ "ar"))
    | some ar => Except.ok [("TARGET_AR", ar ++ " rcus")]
  else Except.ok []

/-- The `TARGET_STRIP` block (lines 213–226), same shape as `TARGET_AR` but with no
flag suffix. -/
def stripEnv (i : UnixInputs) (bindir pfx : String) :
    Except BuildErr (List (String × String)) :=
  if envGet i.callerEnv "TARGET_STRIP" = none then
    match findStrip i.sys i.ci bindir pfx with
    | none => Except.error (BuildErr.panic ("cannot find " ++ pfx ++ "strip"))
    | some strip => Except.ok [("TARGET_STRIP", strip)]
  else Except.ok []

/-- The `CCDEBUG` block (lines 234–235): set only in debug mode. -/
def debugEnv (i : UnixInputs) : List (String × String) :=
  if i.debug then [("CCDEBUG", "-g")] else []

/-- The complete set of environment variables `build_unix` sets on the
spawned `make` command (in source order), or the fatal outcome reached while
computing them.  Each override variable is set only when absent from the
caller's environment; the pointer-width read is an unconditional `unwrap`;
the compiler path is resolved through `which` (a recoverable error on
failure); missing archiver/strip candidates panic. -/
def buildUnixEnv (i : UnixInputs) : Except BuildErr (List (String × String)) :=
  match envGet i.callerEnv "CARGO_CFG_TARGET_POINTER_WIDTH" with
  | none => Except.error (BuildErr.panic "CARGO_CFG_TARGET_POINTER_WIDTH: NotPresent")
  | some tpw =>
    match i.sys.whichLookup i.ci.path with
    | none => Except.error (BuildErr.err ("Cannot find " ++ i.ci.path))
    | some resolved =>
      match arEnv i (parentDir resolved) (inferPfx i.ci.path),
          stripEnv i (parentDir resolved) (inferPfx i.ci.path) with
      | Except.error e, _ => Except.error e
      | _, Except.error e => Except.error e
      | Except.ok arL, Except.ok stripL =>
        Except.ok (targetEnvBase i.target i.callerEnv ++ hostccEnv i tpw ++
          staticCcEnv i resolved ++ ldEnv i resolved ++ arL ++ stripL ++ debugEnv i ++
          [("BUILDMODE", "static"), ("XCFLAGS", xcflagsValue i.lua52compat i.debug)])

/-- The environment the spawned build process actually sees for a key:
an explicit `Command::env` setting wins over the inherited caller value. -/
def spawnedEnvGet (callerEnv makeEnv : List (String × String)) (k : String) : Option String :=
  match envGet makeEnv k with
  | some v => some v
  | none => envGet callerEnv k

/-! ## Staging as an effect trace (`build_unix` lines 108–137, `build_msvc`
lines 248–269) -/

/-- A file-system mutation performed by the staging phase. -/
inductive FsEffect where
  | removeDirAll (p : String)
  | createDirAll (p : String)
  | copyTreeInto (src dst : String)
  | copyFile (src dst : String)
  | setWritable (p : String)
deriving DecidableEq

/-- The staging prelude of `build_unix`: the `expect` checks on TARGET, HOST
and OUT_DIR in source order, then the cleanup loop, the recursive copy, the
release-marker copy and its permission fix.  Returns the ordered effect
trace together with the fatal outcome, if any, reached before the trace was
produced. -/
def buildUnixStage (b : Build) (dirExists : String → Bool) (manifestDir : String) :
    List FsEffect × Option BuildErr :=
  match b.target with
  | none => ([], some (BuildErr.panic "TARGET is not set"))
  | some _ =>
    match b.host with
    | none => ([], some (BuildErr.panic "HOST is not set"))
    | some _ =>
      match b.out_dir with
      | none => ([], some (BuildErr.panic "OUT_DIR is not set"))
      | some outDir =>
        let sourceDir := pjoin manifestDir "luajit2"
        let buildDir := pjoin outDir "luajit-build"
        let libDir := pjoin outDir "lib"
        let includeDir := pjoin outDir "include"
        let cleanup := [buildDir, libDir, includeDir].flatMap (fun d =>
          (if dirExists d then [FsEffect.removeDirAll d] else []) ++ [FsEffect.createDirAll d])
        (cleanup ++
          [FsEffect.copyTreeInto sourceDir buildDir,
           FsEffect.copyFile (pjoin manifestDir "luajit_relver.txt") (pjoin buildDir ".relver"),
           FsEffect.setWritable (pjoin buildDir ".relver")], none)

/-- The staging prelude of `build_msvc`: `expect` checks on TARGET and
OUT_DIR, the cleanup loop, the recursive copy and the release-marker copy —
with no permission fix. -/
def buildMsvcStage (b : Build) (dirExists : String → Bool) (manifestDir : String) :
    List FsEffect × Option BuildErr :=
  match b.target with
  | none => ([], some (BuildErr.panic "TARGET is not set"))
  | some _ =>
    match b.out_dir with
    | none => ([], some (BuildErr.panic "OUT_DIR is not set"))
    | some outDir =>
      let sourceDir := pjoin manifestDir "luajit2"
      let buildDir := pjoin outDir "luajit-build"
      let libDir := pjoin outDir "lib"
      let includeDir := pjoin outDir "include"
      let cleanup := [buildDir, libDir, includeDir].flatMap (fun d =>
        (if dirExists d then [FsEffect.removeDirAll d] else []) ++ [FsEffect.createDirAll d])
      (cleanup ++
        [FsEffect.copyTreeInto sourceDir buildDir,
         FsEffect.copyFile (pjoin manifestDir "luajit_relver.txt") (pjoin buildDir ".relver")],
       none)

/-- Whether an effect is a permission fix (`set_readonly(false)`). -/
def isSetWritable : FsEffect → Bool
  | FsEffect.setWritable _ => true
  | _ => false

/-- The six override environment variables the resolver honours verbatim. -/
def overrideKeys : List String :=
  ["HOST_CC", "STATIC_CC", "TARGET_LD", "TARGET_AR", "TARGET_STRIP",
   "MACOSX_DEPLOYMENT_TARGET"]

/-! ## `cp_r` on a path-indexed file-system model (lines 298–321) -/

/-- A directory tree as a finite list of (path-components, file-content)
pairs; directories are implicit as path prefixes. -/
abbrev FsTree := List (List String × Nat)

/-- The entries `cp_r` actually copies: every entry any of whose components
is named exactly `.git` is skipped, at every directory level. -/
def filterGit (t : FsTree) : FsTree :=
  t.filter (fun e => !(e.1.any (fun c => c = ".git")))

/-- Whether a tree has a file at the given path. -/
def hasPath (t : FsTree) (p : List String) : Bool := t.any (fun e => e.1 = p)

/-- Models `cp_r src dst`: the recursive copy merges the (git-filtered) source
entries into the destination, overwriting destination files that collide
(`remove_file` + `copy`) and keeping the rest. -/
def cpR (src dst : FsTree) : FsTree :=
  dst.filter (fun e => !(hasPath (filterGit src) e.1)) ++ filterGit src

/-- The stage step on a destination tree: `build_unix`/`build_msvc` first
remove the destination entirely and recreate it empty, then `cp_r` the
source into it. -/
def stage (src _dst : FsTree) : FsTree := cpR src []

/-! ## `Artifacts::make` (lines 357–384) -/

/-- The `Artifacts` structure returned to the caller. -/
structure Artifacts where
  include_dir : String
  lib_dir : String
  libs : List String
deriving DecidableEq

/-- The fixed list of public headers copied by `Artifacts::make`. -/
def headerList : List String := ["lauxlib.h", "lua.h", "luaconf.h", "luajit.h", "lualib.h"]

/-- The header-copy loop: each header is copied from `buildDir/src` into the
include directory, failing (recoverable error) at the first missing one;
returns the effects performed before any failure. -/
def copyHeaders (buildDir includeDir : String) (fileExists : String → Bool) :
    List String → List FsEffect × Option BuildErr
  | [] => ([], none)
  | h :: rest =>
    if fileExists (pjoin (pjoin buildDir "src") h) then
      let r := copyHeaders buildDir includeDir fileExists rest
      (FsEffect.copyFile (pjoin (pjoin buildDir "src") h) (pjoin includeDir h) :: r.1, r.2)
    else
      ([], some (BuildErr.err ("Cannot copy " ++ h)))

/-- Models `Artifacts::make`: copy the five public headers (fatal if one is
missing), copy the single static library if it exists (silently skipping it
otherwise), and return the undecorated library name. -/
def artifactsMake (buildDir includeDir libDir : String) (isMsvc : Bool)
    (fileExists : String → Bool) : List FsEffect × Except BuildErr Artifacts :=
  let hr := copyHeaders buildDir includeDir fileExists headerList
  match hr.2 with
  | some e => (hr.1, Except.error e)
  | none =>
    let libName := if !isMsvc then "luajit" else "lua51"
    let libFile := if !isMsvc then "libluajit.a" else "lua51.lib"
    let les :=
      if fileExists (pjoin (pjoin buildDir "src") libFile) then
        [FsEffect.copyFile (pjoin (pjoin buildDir "src") libFile) (pjoin libDir libFile)]
      else []
    (hr.1 ++ les, Except.ok ⟨includeDir, libDir, [libName]⟩)

/-! ## Helper lemmas -/

theorem startsWithL_iff : ∀ (as bs : List Char), startsWithL as bs = true ↔ as <+: bs := by
  intro as
  induction as with
  | nil => intro bs; simp [startsWithL]
  | cons a as ih =>
    intro bs
    cases bs with
    | nil => simp [startsWithL]
    | cons b bs => simp [startsWithL, List.cons_prefix_cons, ih, And.comm]

theorem strEndsWith_iff (s suf : String) : strEndsWith s suf = true ↔ suf.data <:+ s.data := by
  rw [strEndsWith, startsWithL_iff, List.reverse_prefix]

theorem envGet_append (l₁ l₂ : List (String × String)) (k : String) :
    envGet (l₁ ++ l₂) k =
      match envGet l₁ k with
      | some v => some v
      | none => envGet l₂ k := by
  induction l₁ with
  | nil => simp [envGet]
  | cons e rest ih =>
    obtain ⟨k', v⟩ := e
    by_cases h : k' = k
    · simp [envGet, h]
    · simp [envGet, h, ih]

theorem envGet_eq_none (l : List (String × String)) (k : String)
    (h : ∀ e ∈ l, e.1 ≠ k) : envGet l k = none := by
  induction l with
  | nil => rfl
  | cons e rest ih =>
    obtain ⟨k', v⟩ := e
    have hne : k' ≠ k := h (k', v) (List.mem_cons_self _ _)
    simp only [envGet, if_neg hne]
    exact ih fun e he => h e (List.mem_cons_of_mem _ he)

/-! ## C2: make-driver selection -/

/-- C2 (counterexample): the host triple "aarch64-unknown-freebsd" ends in
"-freebsd", yet `cmd_make` selects "make", not "gmake" — the source matches
only the two exact x86_64 triples, not every BSD-family suffix. -/
theorem c2_make_driver_counterexample :
    strEndsWith "aarch64-unknown-freebsd" "-freebsd" = true ∧
    cmd_make (some "aarch64-unknown-freebsd") = some "make" ∧
    cmd_make (some "aarch64-unknown-freebsd") ≠ some "gmake" := by decide

/-- C2 (amended): `cmd_make` returns "gmake" exactly for the host triples
"x86_64-unknown-dragonfly" and "x86_64-unknown-freebsd", returns "make" for
every other host triple, and fails fatally when the host triple is absent. -/
theorem c2_make_driver_amended :
    cmd_make none = none ∧
    (∀ h : String, cmd_make (some h) = some "gmake" ↔
      (h = "x86_64-unknown-dragonfly" ∨ h = "x86_64-unknown-freebsd")) ∧
    (∀ h : String, h ≠ "x86_64-unknown-dragonfly" → h ≠ "x86_64-unknown-freebsd" →
      cmd_make (some h) = some "make") := by
  refine ⟨rfl, ?_, ?_⟩
  · intro h
    by_cases h1 : h = "x86_64-unknown-dragonfly"
    · simp [cmd_make, h1]
    · by_cases h2 : h = "x86_64-unknown-freebsd"
      · simp [cmd_make, h1, h2]
      · simp only [cmd_make, if_neg h1, if_neg h2]
        constructor
        · intro hh
          exact absurd (Option.some.inj hh) (by decide)
        · rintro (hh | hh) <;> exact absurd hh (by assumption)
  · intro h h1 h2
    simp [cmd_make, h1, h2]

/-- C2 witness: the amended characterization applied to a concrete
non-x86_64 BSD host triple. -/
theorem c2_make_driver_amended_witness :
    cmd_make (some "aarch64-unknown-freebsd") = some "make" :=
  c2_make_driver_amended.2.2 "aarch64-unknown-freebsd" (by decide) (by decide)

/-! ## C5: MSVC dispatch and batch-script argument order -/

/-- C5: every target containing "msvc" dispatches to the Windows build path
and every other target to the Unix path; the dispatch depends only on the
target (never the host); with compat mode on, the batch script receives
"lua52compat" immediately before "static". -/
theorem c5_msvc_dispatch :
    (∀ (b : Build) (t : String), b.target = some t → containsSub t "msvc" = true →
      tryBuildPath b = Except.ok PathKind.msvc) ∧
    (∀ (b : Build) (t : String), b.target = some t → containsSub t "msvc" = false →
      tryBuildPath b = Except.ok PathKind.unix) ∧
    (∀ b₁ b₂ : Build, b₁.target = b₂.target → tryBuildPath b₁ = tryBuildPath b₂) ∧
    msvcbuildArgs true = ["lua52compat", "static"] ∧
    msvcbuildArgs false = ["static"] := by
  refine ⟨?_, ?_, ?_, rfl, rfl⟩
  · intro b t ht hm
    simp [tryBuildPath, ht, hm]
  · intro b t ht hm
    simp [tryBuildPath, ht, hm]
  · intro b₁ b₂ hEq
    simp [tryBuildPath, hEq]

/-- C5 witness: a concrete MSVC target (with a Unix host) goes to the
Windows path, and a concrete non-MSVC target goes to the Unix path. -/
theorem c5_msvc_dispatch_witness :
    tryBuildPath ⟨some "o", some "x86_64-pc-windows-msvc", some "x86_64-unknown-linux-gnu",
        true, none⟩ = Except.ok PathKind.msvc ∧
    tryBuildPath ⟨some "o", some "x86_64-unknown-linux-gnu", some "x86_64-unknown-linux-gnu",
        false, none⟩ = Except.ok PathKind.unix :=
  ⟨c5_msvc_dispatch.1 _ "x86_64-pc-windows-msvc" rfl (by decide),
   c5_msvc_dispatch.2.1 _ "x86_64-unknown-linux-gnu" rfl (by decide)⟩

/-! ## C6: missing output directory fails before any filesystem mutation -/

/-- C6: when the output directory is absent (no explicit setting and no
inherited OUT_DIR), both build paths fail fatally with an empty effect
trace — no directory is removed, created or written before the failure; when
the other required settings are present the failure is precisely the
OUT_DIR configuration panic. -/
theorem c6_missing_out_dir :
    ∀ (b : Build) (de : String → Bool) (md : String), b.out_dir = none →
      (buildUnixStage b de md).1 = [] ∧ (buildUnixStage b de md).2.isSome = true ∧
      (buildMsvcStage b de md).1 = [] ∧ (buildMsvcStage b de md).2.isSome = true ∧
      (∀ t h, b.target = some t → b.host = some h →
        (buildUnixStage b de md).2 = some (BuildErr.panic "OUT_DIR is not set")) ∧
      (∀ t, b.target = some t →
        (buildMsvcStage b de md).2 = some (BuildErr.panic "OUT_DIR is not set")) := by
  intro b de md ho
  obtain ⟨od, tg, hs, c, d⟩ := b
  cases ho
  refine ⟨?_, ?_, ?_, ?_, ?_, ?_⟩
  · cases tg <;> cases hs <;> rfl
  · cases tg <;> cases hs <;> rfl
  · cases tg <;> rfl
  · cases tg <;> rfl
  · intro t h ht hh
    cases ht; cases hh; rfl
  · intro t ht
    cases ht; rfl

/-- C6 witness: the no-mutation failure at a wholly unconfigured build. -/
theorem c6_missing_out_dir_witness :
    (buildUnixStage ⟨none, some "x86_64-unknown-linux-gnu", some "x86_64-unknown-linux-gnu",
        false, none⟩ (fun _ => true) "m").1 = [] ∧
    (buildUnixStage ⟨none, some "x86_64-unknown-linux-gnu", some "x86_64-unknown-linux-gnu",
        false, none⟩ (fun _ => true) "m").2 = some (BuildErr.panic "OUT_DIR is not set") :=
  ⟨(c6_missing_out_dir _ (fun _ => true) "m" rfl).1,
   (c6_missing_out_dir _ (fun _ => true) "m" rfl).2.2.2.2.1 _ _ rfl rfl⟩

/-! ## C7: staging is idempotent -/

/-- C7: running the stage step (wipe destination, recreate it, copy the
source tree skipping `.git` entries) twice yields exactly the tree of a
single run; every entry of the result comes from the git-filtered source,
and no entry has a `.git` component. -/
theorem c7_stage_idempotent :
    ∀ (src dst : FsTree),
      stage src (stage src dst) = stage src dst ∧
      (∀ e, e ∈ stage src dst → e ∈ filterGit src) ∧
      (∀ e, e ∈ stage src dst → ∀ c ∈ e.1, c ≠ ".git") := by
  intro src dst
  refine ⟨rfl, ?_, ?_⟩
  · intro e he
    simpa [stage, cpR] using he
  · intro e he c hc
    have he' : e ∈ filterGit src := by simpa [stage, cpR] using he
    have hprop := List.of_mem_filter he'
    intro hgit
    simp only [Bool.not_eq_true', List.any_eq_false, decide_eq_true_eq] at hprop
    exact hprop c hc hgit

/-- C7 witness: staging a concrete tree (with a `.git` entry and a stale
destination file) twice equals staging it once, and drops the `.git` entry. -/
theorem c7_stage_idempotent_witness :
    stage [(["src", "x.c"], 1), ([".git", "cfg"], 2)]
        (stage [(["src", "x.c"], 1), ([".git", "cfg"], 2)] [(["stale"], 9)]) =
      stage [(["src", "x.c"], 1), ([".git", "cfg"], 2)] [(["stale"], 9)] ∧
    (["src", "x.c"], 1) ∈ filterGit [(["src", "x.c"], 1), ([".git", "cfg"], 2)] :=
  ⟨(c7_stage_idempotent [(["src", "x.c"], 1), ([".git", "cfg"], 2)] [(["stale"], 9)]).1,
   (c7_stage_idempotent [(["src", "x.c"], 1), ([".git", "cfg"], 2)] [(["stale"], 9)]).2.1
     (["src", "x.c"], 1) (by decide)⟩

/-! ## C8: release-marker copy and permission fix -/

theorem cleanup_no_setWritable (de : String → Bool) (ds : List String) :
    ((ds.flatMap fun d => (if de d then [FsEffect.removeDirAll d] else []) ++
      [FsEffect.createDirAll d]).all fun e => !(isSetWritable e)) = true := by
  induction ds with
  | nil => rfl
  | cons d rest ih => cases hd : de d <;> simp [List.all_append, isSetWritable, hd, ih]

/-- C8 (counterexample): on the Windows build path the staging succeeds and
copies the release marker to `.relver`, but performs no permission fix at
all — contradicting the claim that both paths force the marker writable. -/
theorem c8_relver_counterexample :
    (buildMsvcStage ⟨some "out", some "x86_64-pc-windows-msvc", some "x86_64-pc-windows-msvc",
        false, none⟩ (fun _ => false) "m").2 = none ∧
    FsEffect.copyFile "m/luajit_relver.txt" "out/luajit-build/.relver" ∈
      (buildMsvcStage ⟨some "out", some "x86_64-pc-windows-msvc", some "x86_64-pc-windows-msvc",
        false, none⟩ (fun _ => false) "m").1 ∧
    ((buildMsvcStage ⟨some "out", some "x86_64-pc-windows-msvc", some "x86_64-pc-windows-msvc",
        false, none⟩ (fun _ => false) "m").1.all fun e => !(isSetWritable e)) = true := by
  decide

/-- C8 (amended): on every successful staging the release marker is copied
into the staged tree's root as `.relver`; on the Unix path its permissions
are then forced writable; on the Windows path the marker is copied but no
permission fix is performed. -/
theorem c8_relver_amended :
    ∀ (b : Build) (de : String → Bool) (md t h o : String),
      b.target = some t → b.host = some h → b.out_dir = some o →
      (buildUnixStage b de md).2 = none ∧
      (∃ pre, (buildUnixStage b de md).1 = pre ++
        [FsEffect.copyTreeInto (pjoin md "luajit2") (pjoin o "luajit-build"),
         FsEffect.copyFile (pjoin md "luajit_relver.txt") (pjoin (pjoin o "luajit-build") ".relver"),
         FsEffect.setWritable (pjoin (pjoin o "luajit-build") ".relver")]) ∧
      (buildMsvcStage b de md).2 = none ∧
      (∃ pre, (buildMsvcStage b de md).1 = pre ++
        [FsEffect.copyTreeInto (pjoin md "luajit2") (pjoin o "luajit-build"),
         FsEffect.copyFile (pjoin md "luajit_relver.txt") (pjoin (pjoin o "luajit-build") ".relver")]) ∧
      ((buildMsvcStage b de md).1.all fun e => !(isSetWritable e)) = true := by
  intro b de md t h o ht hh ho
  obtain ⟨od, tg, hs, c, d⟩ := b
  cases ht; cases hh; cases ho
  refine ⟨rfl, ⟨_, rfl⟩, rfl, ⟨_, rfl⟩, ?_⟩
  have hc := cleanup_no_setWritable de [pjoin o "luajit-build", pjoin o "lib", pjoin o "include"]
  simp only [buildMsvcStage, List.all_append, hc, Bool.true_and]
  rfl

/-- C8 witness: the amended statement at a concrete Unix-path build. -/
theorem c8_relver_amended_witness :
    (buildUnixStage ⟨some "out", some "x86_64-unknown-linux-gnu", some "x86_64-unknown-linux-gnu",
        false, none⟩ (fun _ => false) "m").2 = none ∧
    ∃ pre, (buildUnixStage ⟨some "out", some "x86_64-unknown-linux-gnu",
        some "x86_64-unknown-linux-gnu", false, none⟩ (fun _ => false) "m").1 = pre ++
      [FsEffect.copyTreeInto "m/luajit2" "out/luajit-build",
       FsEffect.copyFile "m/luajit_relver.txt" "out/luajit-build/.relver",
       FsEffect.setWritable "out/luajit-build/.relver"] :=
  ⟨(c8_relver_amended _ (fun _ => false) "m" _ _ "out" rfl rfl rfl).1,
   (c8_relver_amended _ (fun _ => false) "m" _ _ "out" rfl rfl rfl).2.1⟩

/-! ## C9: the artifact collector -/

theorem copyHeaders_none_of_all (bd inc : String) (fe : String → Bool) :
    ∀ hs : List String, (∀ h ∈ hs, fe (pjoin (pjoin bd "src") h) = true) →
      (copyHeaders bd inc fe hs).2 = none := by
  intro hs
  induction hs with
  | nil => intro _; rfl
  | cons h rest ih =>
    intro hall
    have hh := hall h (List.mem_cons_self _ _)
    simp only [copyHeaders, hh, if_pos]
    exact ih fun h' hm => hall h' (List.mem_cons_of_mem _ hm)

theorem copyHeaders_isSome_of_missing (bd inc : String) (fe : String → Bool) :
    ∀ (hs : List String) (h : String), h ∈ hs → fe (pjoin (pjoin bd "src") h) = false →
      (copyHeaders bd inc fe hs).2.isSome = true := by
  intro hs
  induction hs with
  | nil => intro h hm _; cases hm
  | cons h0 rest ih =>
    intro h hm hmiss
    cases h0e : fe (pjoin (pjoin bd "src") h0) with
    | false => simp [copyHeaders, h0e]
    | true =>
      simp only [copyHeaders, h0e, if_pos]
      rcases List.mem_cons.mp hm with rfl | hm'
      · rw [h0e] at hmiss; cases hmiss
      · exact ih h hm' hmiss

/-- C9: with all five public headers present the collector succeeds and
returns exactly the undecorated library name ("luajit" on non-MSVC, "lua51"
on MSVC); the static-library copy is performed exactly when the produced
library file exists and is silently skipped otherwise; a missing header is a
fatal error. -/
theorem c9_artifact_collector :
    (∀ (bd inc lib : String) (isM : Bool) (fe : String → Bool),
      (∀ h ∈ headerList, fe (pjoin (pjoin bd "src") h) = true) →
      (artifactsMake bd inc lib isM fe).2 =
          Except.ok ⟨inc, lib, [if isM then "lua51" else "luajit"]⟩ ∧
      (fe (pjoin (pjoin bd "src") (if isM then "lua51.lib" else "libluajit.a")) = false →
        (artifactsMake bd inc lib isM fe).1 = (copyHeaders bd inc fe headerList).1) ∧
      (fe (pjoin (pjoin bd "src") (if isM then "lua51.lib" else "libluajit.a")) = true →
        (artifactsMake bd inc lib isM fe).1 = (copyHeaders bd inc fe headerList).1 ++
          [FsEffect.copyFile
            (pjoin (pjoin bd "src") (if isM then "lua51.lib" else "libluajit.a"))
            (pjoin lib (if isM then "lua51.lib" else "libluajit.a"))])) ∧
    (∀ (bd inc lib : String) (isM : Bool) (fe : String → Bool) (h : String),
      h ∈ headerList → fe (pjoin (pjoin bd "src") h) = false →
      ∃ e, (artifactsMake bd inc lib isM fe).2 = Except.error e) := by
  constructor
  · intro bd inc lib isM fe hall
    have h2 := copyHeaders_none_of_all bd inc fe headerList hall
    refine ⟨?_, ?_, ?_⟩
    · cases isM <;> simp [artifactsMake, h2]
    · intro hmiss
      cases isM <;> simp_all [artifactsMake, h2]
    · intro hex
      cases isM <;> simp_all [artifactsMake, h2]
  · intro bd inc lib isM fe h hm hmiss
    have hs := copyHeaders_isSome_of_missing bd inc fe headerList h hm hmiss
    obtain ⟨e, he⟩ := Option.isSome_iff_exists.mp hs
    exact ⟨e, by simp [artifactsMake, he]⟩

/-- C9 witness: a concrete non-MSVC collection with all headers present and
the library file absent (silent skip), plus a concrete missing-header
failure. -/
theorem c9_artifact_collector_witness :
    (artifactsMake "b" "i" "l" false (fun s => !(s = "b/src/libluajit.a"))).2 =
        Except.ok ⟨"i", "l", ["luajit"]⟩ ∧
    (artifactsMake "b" "i" "l" false (fun s => !(s = "b/src/libluajit.a"))).1 =
        (copyHeaders "b" "i" (fun s => !(s = "b/src/libluajit.a")) headerList).1 ∧
    ∃ e, (artifactsMake "b" "i" "l" true (fun _ => false)).2 = Except.error e :=
  ⟨(c9_artifact_collector.1 "b" "i" "l" false _ (by decide)).1,
   (c9_artifact_collector.1 "b" "i" "l" false _ (by decide)).2.1 (by decide),
   c9_artifact_collector.2 "b" "i" "l" true _ "lua.h" (by decide) (by decide)⟩

/-! ## Structure of the `build_unix` environment assembly -/

theorem targetEnvBase_keys (t : String) (env : List (String × String)) :
    ∀ e ∈ targetEnvBase t env, e.1 = "MACOSX_DEPLOYMENT_TARGET" ∨ e.1 = "TARGET_SYS" := by
  intro e he
  rw [targetEnvBase] at he
  split at he
  · simp_all
  · split at he
    · simp_all
    · split at he
      · simp_all
      · split at he <;> simp_all

theorem targetEnvBase_keys_present (t : String) (env : List (String × String)) (v : String)
    (hM : envGet env "MACOSX_DEPLOYMENT_TARGET" = some v) :
    ∀ e ∈ targetEnvBase t env, e.1 = "TARGET_SYS" := by
  intro e he
  rw [targetEnvBase] at he
  split at he
  · rename_i hc; rw [hM] at hc; exact absurd hc.2 (by simp)
  · split at he
    · rename_i hc; rw [hM] at hc; exact absurd hc.2 (by simp)
    · split at he
      · simp_all
      · split at he <;> simp_all

theorem targetEnvBase_keys_not_apple (t : String) (env : List (String × String))
    (h1 : t ≠ "x86_64-apple-darwin") (h2 : t ≠ "aarch64-apple-darwin") :
    ∀ e ∈ targetEnvBase t env, e.1 = "TARGET_SYS" := by
  intro e he
  rw [targetEnvBase] at he
  split at he
  · rename_i hc; exact absurd hc.1 h1
  · split at he
    · rename_i hc; exact absurd hc.1 h2
    · split at he
      · simp_all
      · split at he <;> simp_all

theorem hostccEnv_keys (i : UnixInputs) (tpw : String) :
    ∀ e ∈ hostccEnv i tpw, e.1 = "HOST_CC" := by
  intro e he
  rw [hostccEnv] at he
  split at he <;> simp_all

theorem hostccEnv_present (i : UnixInputs) (tpw v : String)
    (h : envGet i.callerEnv "HOST_CC" = some v) : hostccEnv i tpw = [] := by
  rw [hostccEnv, if_neg]
  rw [h]
  simp

theorem staticCcEnv_keys (i : UnixInputs) (resolved : String) :
    ∀ e ∈ staticCcEnv i resolved, e.1 = "STATIC_CC" := by
  intro e he
  rw [staticCcEnv] at he
  split at he <;> simp_all

theorem staticCcEnv_present (i : UnixInputs) (resolved v : String)
    (h : envGet i.callerEnv "STATIC_CC" = some v) : staticCcEnv i resolved = [] := by
  rw [staticCcEnv, if_neg]
  rw [h]
  simp

theorem ldEnv_keys (i : UnixInputs) (resolved : String) :
    ∀ e ∈ ldEnv i resolved, e.1 = "TARGET_LD" := by
  intro e he
  rw [ldEnv] at he
  split at he <;> simp_all

theorem ldEnv_present (i : UnixInputs) (resolved v : String)
    (h : envGet i.callerEnv "TARGET_LD" = some v) : ldEnv i resolved = [] := by
  rw [ldEnv, if_neg]
  rw [h]
  simp

theorem debugEnv_keys (i : UnixInputs) : ∀ e ∈ debugEnv i, e.1 = "CCDEBUG" := by
  intro e he
  rw [debugEnv] at he
  split at he <;> simp_all

theorem arEnv_ok_keys (i : UnixInputs) (bindir pfx : String)
    (arL : List (String × String)) (h : arEnv i bindir pfx = Except.ok arL) :
    ∀ e ∈ arL, e.1 = "TARGET_AR" := by
  intro e he
  rw [arEnv] at h
  split at h
  · cases hf : findAr i.sys i.ci bindir pfx with
    | none => rw [hf] at h; cases h
    | some ar => rw [hf] at h; cases h; simp_all
  · cases h; cases he

theorem arEnv_present (i : UnixInputs) (bindir pfx v : String)
    (h : envGet i.callerEnv "TARGET_AR" = some v) : arEnv i bindir pfx = Except.ok [] := by
  rw [arEnv, if_neg]
  rw [h]
  simp

theorem arEnv_ok_value (i : UnixInputs) (bindir pfx : String)
    (arL : List (String × String)) (habs : envGet i.callerEnv "TARGET_AR" = none)
    (h : arEnv i bindir pfx = Except.ok arL) :
    ∃ ar, findAr i.sys i.ci bindir pfx = some ar ∧ arL = [("TARGET_AR", ar ++ " rcus")] := by
  rw [arEnv, if_pos habs] at h
  cases hf : findAr i.sys i.ci bindir pfx with
  | none => rw [hf] at h; cases h
  | some ar => rw [hf] at h; cases h; exact ⟨ar, rfl, rfl⟩

theorem arEnv_fatal (i : UnixInputs) (bindir pfx : String)
    (habs : envGet i.callerEnv "TARGET_AR" = none)
    (hf : findAr i.sys i.ci bindir pfx = none) :
    arEnv i bindir pfx = Except.error (BuildErr.panic ("cannot find " ++ pfx ++ "ar")) := by
  rw [arEnv, if_pos habs, hf]

theorem stripEnv_ok_keys (i : UnixInputs) (bindir pfx : String)
    (stripL : List (String × String)) (h : stripEnv i bindir pfx = Except.ok stripL) :
    ∀ e ∈ stripL, e.1 = "TARGET_STRIP" := by
  intro e he
  rw [stripEnv] at h
  split at h
  · cases hf : findStrip i.sys i.ci bindir pfx with
    | none => rw [hf] at h; cases h
    | some strip => rw [hf] at h; cases h; simp_all
  · cases h; cases he

theorem stripEnv_present (i : UnixInputs) (bindir pfx v : String)
    (h : envGet i.callerEnv "TARGET_STRIP" = some v) :
    stripEnv i bindir pfx = Except.ok [] := by
  rw [stripEnv, if_neg]
  rw [h]
  simp

/-- Every successful run of the resolver decomposes into the target-derived
base block followed by the guarded override blocks, in source order. -/
theorem buildUnixEnv_ok_decomp (i : UnixInputs) (l : List (String × String))
    (h : buildUnixEnv i = Except.ok l) :
    ∃ (tpw resolved : String) (arL stripL : List (String × String)),
      envGet i.callerEnv "CARGO_CFG_TARGET_POINTER_WIDTH" = some tpw ∧
      i.sys.whichLookup i.ci.path = some resolved ∧
      arEnv i (parentDir resolved) (inferPfx i.ci.path) = Except.ok arL ∧
      stripEnv i (parentDir resolved) (inferPfx i.ci.path) = Except.ok stripL ∧
      l = targetEnvBase i.target i.callerEnv ++ (hostccEnv i tpw ++
        (staticCcEnv i resolved ++ (ldEnv i resolved ++ (arL ++ (stripL ++
        (debugEnv i ++ [("BUILDMODE", "static"),
          ("XCFLAGS", xcflagsValue i.lua52compat i.debug)])))))) := by
  rw [buildUnixEnv] at h
  split at h
  · cases h
  rename_i tpw htpw
  split at h
  · cases h
  rename_i resolved hres
  split at h
  · cases h
  · cases h
  rename_i arL stripL ha hs
  refine ⟨tpw, resolved, arL, stripL, htpw, hres, ha, hs, ?_⟩
  rw [← Except.ok.inj h]
  simp [List.append_assoc]

theorem envGet_append_none (l₁ l₂ : List (String × String)) (k : String)
    (h : envGet l₁ k = none) : envGet (l₁ ++ l₂) k = envGet l₂ k := by
  rw [envGet_append, h]

/-- Every fatal outcome of the resolver is one of: the pointer-width unwrap
panic, the unresolvable-compiler error, an archiver-chain failure, or a
strip-chain failure (reached only with the archiver step passed). -/
theorem buildUnixEnv_error_cases (i : UnixInputs) (e : BuildErr)
    (h : buildUnixEnv i = Except.error e) :
    (envGet i.callerEnv "CARGO_CFG_TARGET_POINTER_WIDTH" = none ∧
      e = BuildErr.panic "CARGO_CFG_TARGET_POINTER_WIDTH: NotPresent") ∨
    (∃ tpw, envGet i.callerEnv "CARGO_CFG_TARGET_POINTER_WIDTH" = some tpw ∧
      i.sys.whichLookup i.ci.path = none ∧ e = BuildErr.err ("Cannot find " ++ i.ci.path)) ∨
    (∃ tpw resolved, envGet i.callerEnv "CARGO_CFG_TARGET_POINTER_WIDTH" = some tpw ∧
      i.sys.whichLookup i.ci.path = some resolved ∧
      arEnv i (parentDir resolved) (inferPfx i.ci.path) = Except.error e) ∨
    (∃ tpw resolved arL, envGet i.callerEnv "CARGO_CFG_TARGET_POINTER_WIDTH" = some tpw ∧
      i.sys.whichLookup i.ci.path = some resolved ∧
      arEnv i (parentDir resolved) (inferPfx i.ci.path) = Except.ok arL ∧
      stripEnv i (parentDir resolved) (inferPfx i.ci.path) = Except.error e) := by
  rw [buildUnixEnv] at h
  split at h
  · rename_i htpw
    exact Or.inl ⟨htpw, (Except.error.inj h).symm⟩
  rename_i tpw htpw
  split at h
  · rename_i hres
    exact Or.inr (Or.inl ⟨tpw, htpw, hres, (Except.error.inj h).symm⟩)
  rename_i resolved hres
  split at h
  · rename_i e' ha
    exact Or.inr (Or.inr (Or.inl ⟨tpw, resolved, htpw, hres, (Except.error.inj h) ▸ ha⟩))
  · rename_i e' hstrip hnotar
    cases haE : arEnv i (parentDir resolved) (inferPfx i.ci.path) with
    | error e2 => exact absurd haE fun hh => hnotar e2 hh
    | ok arL =>
      exact Or.inr (Or.inr (Or.inr
        ⟨tpw, resolved, arL, htpw, hres, haE, (Except.error.inj h) ▸ hstrip⟩))
  · cases h

/-- Any `MACOSX_DEPLOYMENT_TARGET` binding in a successful resolver output
comes from the target-derived base block alone. -/
theorem buildUnixEnv_M_from_base (i : UnixInputs) (l : List (String × String))
    (h : buildUnixEnv i = Except.ok l) :
    envGet l "MACOSX_DEPLOYMENT_TARGET" =
      envGet (targetEnvBase i.target i.callerEnv) "MACOSX_DEPLOYMENT_TARGET" := by
  obtain ⟨tpw, resolved, arL, stripL, hc, hw, ha, hs, hl⟩ := buildUnixEnv_ok_decomp i l h
  subst hl
  rw [envGet_append]
  cases hb : envGet (targetEnvBase i.target i.callerEnv) "MACOSX_DEPLOYMENT_TARGET" with
  | some v => rfl
  | none =>
    show envGet _ "MACOSX_DEPLOYMENT_TARGET" = none
    apply envGet_eq_none
    intro e he
    simp only [List.mem_append] at he
    rcases he with hh | hsc | hld | har | hstr | hd | ht
    · rw [hostccEnv_keys i tpw e hh]; decide
    · rw [staticCcEnv_keys i resolved e hsc]; decide
    · rw [ldEnv_keys i resolved e hld]; decide
    · rw [arEnv_ok_keys i _ _ arL ha e har]; decide
    · rw [stripEnv_ok_keys i _ _ stripL hs e hstr]; decide
    · rw [debugEnv_keys i e hd]; decide
    · simp only [List.mem_cons, List.mem_singleton] at ht
      rcases ht with rfl | rfl | hF
      · show ("BUILDMODE" : String) ≠ "MACOSX_DEPLOYMENT_TARGET"
        decide
      · show ("XCFLAGS" : String) ≠ "MACOSX_DEPLOYMENT_TARGET"
        decide
      · cases hF

/-! ## C10: the pointer-width variable is unconditionally unwrapped -/

/-- C10: on the Unix path, if `CARGO_CFG_TARGET_POINTER_WIDTH` is absent
from the caller's environment the resolver aborts with a panic — never with
a categorized (recoverable) error — for every target, including those where
the 32-bit special case would not apply. -/
theorem c10_pointer_width_unwrap :
    ∀ i : UnixInputs, envGet i.callerEnv "CARGO_CFG_TARGET_POINTER_WIDTH" = none →
      buildUnixEnv i =
        Except.error (BuildErr.panic "CARGO_CFG_TARGET_POINTER_WIDTH: NotPresent") ∧
      ∀ m, buildUnixEnv i ≠ Except.error (BuildErr.err m) := by
  intro i h
  have hb : buildUnixEnv i =
      Except.error (BuildErr.panic "CARGO_CFG_TARGET_POINTER_WIDTH: NotPresent") := by
    rw [buildUnixEnv, h]
  refine ⟨hb, ?_⟩
  intro m
  rw [hb]
  simp

/-- C10 witness: a concrete 64-bit Linux input whose environment lacks the
pointer-width variable panics. -/
theorem c10_pointer_width_unwrap_witness :
    buildUnixEnv ⟨"x86_64-unknown-linux-gnu", [("TARGET_AR", "ar")],
        ⟨"cc", "-O2", false, true⟩, "cc", ⟨fun _ => false, fun _ => none⟩, false, false⟩ =
      Except.error (BuildErr.panic "CARGO_CFG_TARGET_POINTER_WIDTH: NotPresent") :=
  (c10_pointer_width_unwrap ⟨"x86_64-unknown-linux-gnu", [("TARGET_AR", "ar")],
      ⟨"cc", "-O2", false, true⟩, "cc", ⟨fun _ => false, fun _ => none⟩, false, false⟩ rfl).1

/-! ## C4: Apple deployment-target pinning -/

/-- C4: with `MACOSX_DEPLOYMENT_TARGET` absent, the spawned environment
pins it to "11.0" for target `aarch64-apple-darwin` and to "10.14" for
`x86_64-apple-darwin`; a caller-supplied value is retained unchanged; no
other target triple receives a deployment-target setting. -/
theorem c4_macosx_deployment_target :
    (∀ (i : UnixInputs) (l : List (String × String)),
      i.target = "aarch64-apple-darwin" →
      envGet i.callerEnv "MACOSX_DEPLOYMENT_TARGET" = none →
      buildUnixEnv i = Except.ok l →
      spawnedEnvGet i.callerEnv l "MACOSX_DEPLOYMENT_TARGET" = some "11.0") ∧
    (∀ (i : UnixInputs) (l : List (String × String)),
      i.target = "x86_64-apple-darwin" →
      envGet i.callerEnv "MACOSX_DEPLOYMENT_TARGET" = none →
      buildUnixEnv i = Except.ok l →
      spawnedEnvGet i.callerEnv l "MACOSX_DEPLOYMENT_TARGET" = some "10.14") ∧
    (∀ (i : UnixInputs) (l : List (String × String)) (v : String),
      envGet i.callerEnv "MACOSX_DEPLOYMENT_TARGET" = some v →
      buildUnixEnv i = Except.ok l →
      spawnedEnvGet i.callerEnv l "MACOSX_DEPLOYMENT_TARGET" = some v) ∧
    (∀ (i : UnixInputs) (l : List (String × String)),
      i.target ≠ "aarch64-apple-darwin" → i.target ≠ "x86_64-apple-darwin" →
      buildUnixEnv i = Except.ok l →
      envGet l "MACOSX_DEPLOYMENT_TARGET" = none) := by
  refine ⟨?_, ?_, ?_, ?_⟩
  · intro i l ht hM hok
    have hMl := buildUnixEnv_M_from_base i l hok
    have hbase : targetEnvBase i.target i.callerEnv =
        [("MACOSX_DEPLOYMENT_TARGET", "11.0")] := by
      rw [ht, targetEnvBase]
      rw [if_neg fun hcon => absurd hcon.1 (by decide)]
      rw [if_pos ⟨rfl, hM⟩]
    rw [hbase] at hMl
    have h1 : envGet [("MACOSX_DEPLOYMENT_TARGET", "11.0")] "MACOSX_DEPLOYMENT_TARGET" =
        some "11.0" := by simp [envGet]
    rw [h1] at hMl
    rw [spawnedEnvGet, hMl]
  · intro i l ht hM hok
    have hMl := buildUnixEnv_M_from_base i l hok
    have hbase : targetEnvBase i.target i.callerEnv =
        [("MACOSX_DEPLOYMENT_TARGET", "10.14")] := by
      rw [ht, targetEnvBase]
      rw [if_pos ⟨rfl, hM⟩]
    rw [hbase] at hMl
    have h1 : envGet [("MACOSX_DEPLOYMENT_TARGET", "10.14")] "MACOSX_DEPLOYMENT_TARGET" =
        some "10.14" := by simp [envGet]
    rw [h1] at hMl
    rw [spawnedEnvGet, hMl]
  · intro i l v hM hok
    have hMl := buildUnixEnv_M_from_base i l hok
    have hbase0 : envGet (targetEnvBase i.target i.callerEnv)
        "MACOSX_DEPLOYMENT_TARGET" = none := by
      apply envGet_eq_none
      intro e he
      rw [targetEnvBase_keys_present i.target i.callerEnv v hM e he]
      decide
    rw [hbase0] at hMl
    rw [spawnedEnvGet, hMl, hM]
  · intro i l h1 h2 hok
    have hMl := buildUnixEnv_M_from_base i l hok
    have hbase0 : envGet (targetEnvBase i.target i.callerEnv)
        "MACOSX_DEPLOYMENT_TARGET" = none := by
      apply envGet_eq_none
      intro e he
      rw [targetEnvBase_keys_not_apple i.target i.callerEnv h2 h1 e he]
      decide
    rw [hbase0] at hMl
    exact hMl

/-- C4 witness: a concrete `aarch64-apple-darwin` build with the variable
absent receives exactly the "11.0" pin in the spawned environment. -/
theorem c4_macosx_deployment_target_witness :
    spawnedEnvGet [("CARGO_CFG_TARGET_POINTER_WIDTH", "64")]
      [("MACOSX_DEPLOYMENT_TARGET", "11.0"), ("STATIC_CC", "/bin/cc -O2"),
       ("TARGET_LD", "/bin/cc -O2"), ("TARGET_AR", "/bin/ar rcus"),
       ("TARGET_STRIP", "/bin/strip"), ("BUILDMODE", "static"), ("XCFLAGS", "-fPIC")]
      "MACOSX_DEPLOYMENT_TARGET" = some "11.0" :=
  c4_macosx_deployment_target.1
    ⟨"aarch64-apple-darwin", [("CARGO_CFG_TARGET_POINTER_WIDTH", "64")],
      ⟨"cc", "-O2", false, true⟩, "cc",
      ⟨fun s => s == "/bin/ar" || s == "/bin/strip",
       fun s => if s = "cc" then some "/bin/cc" else none⟩, false, false⟩
    [("MACOSX_DEPLOYMENT_TARGET", "11.0"), ("STATIC_CC", "/bin/cc -O2"),
     ("TARGET_LD", "/bin/cc -O2"), ("TARGET_AR", "/bin/ar rcus"),
     ("TARGET_STRIP", "/bin/strip"), ("BUILDMODE", "static"), ("XCFLAGS", "-fPIC")]
    rfl rfl rfl

/-! ## C1: caller-supplied override variables are honoured verbatim -/

/-- C1: in every successful build, each override variable that is present
in the caller's environment — individually, with the others present or
absent — is never set on the spawned process: its slot in the resolver
output is empty and only absent variables are filled in. -/
theorem c1_override_env_untouched :
    ∀ (i : UnixInputs) (l : List (String × String)),
      buildUnixEnv i = Except.ok l →
      ∀ k ∈ overrideKeys, (envGet i.callerEnv k).isSome = true → envGet l k = none := by
  intro i l hres k hk hkp
  obtain ⟨v, hv⟩ := Option.isSome_iff_exists.mp hkp
  obtain ⟨tpw', resolved', arL, stripL, hc', hw', ha', hs', hl⟩ :=
    buildUnixEnv_ok_decomp i l hres
  subst hl
  apply envGet_eq_none
  intro e he
  simp only [List.mem_append] at he
  rcases he with hb | hh | hsc | hld | har | hstr | hd | ht
  · by_cases hkM : k = "MACOSX_DEPLOYMENT_TARGET"
    · subst hkM
      rw [targetEnvBase_keys_present i.target i.callerEnv v hv e hb]
      decide
    · rcases targetEnvBase_keys i.target i.callerEnv e hb with h1 | h1 <;> rw [h1]
      · exact fun heq => hkM heq.symm
      · intro heq
        rw [← heq] at hk
        exact absurd hk (by decide)
  · by_cases hkH : k = "HOST_CC"
    · subst hkH
      rw [hostccEnv_present i tpw' v hv] at hh
      cases hh
    · rw [hostccEnv_keys i tpw' e hh]
      exact fun heq => hkH heq.symm
  · by_cases hkS : k = "STATIC_CC"
    · subst hkS
      rw [staticCcEnv_present i resolved' v hv] at hsc
      cases hsc
    · rw [staticCcEnv_keys i resolved' e hsc]
      exact fun heq => hkS heq.symm
  · by_cases hkL : k = "TARGET_LD"
    · subst hkL
      rw [ldEnv_present i resolved' v hv] at hld
      cases hld
    · rw [ldEnv_keys i resolved' e hld]
      exact fun heq => hkL heq.symm
  · by_cases hkA : k = "TARGET_AR"
    · subst hkA
      rw [arEnv_present i _ _ v hv] at ha'
      rw [← Except.ok.inj ha'] at har
      cases har
    · rw [arEnv_ok_keys i _ _ arL ha' e har]
      exact fun heq => hkA heq.symm
  · by_cases hkT : k = "TARGET_STRIP"
    · subst hkT
      rw [stripEnv_present i _ _ v hv] at hs'
      rw [← Except.ok.inj hs'] at hstr
      cases hstr
    · rw [stripEnv_ok_keys i _ _ stripL hs' e hstr]
      exact fun heq => hkT heq.symm
  · rw [debugEnv_keys i e hd]
    intro heq
    rw [← heq] at hk
    exact absurd hk (by decide)
  · simp only [List.mem_cons, List.mem_singleton] at ht
    rcases ht with rfl | rfl | hF
    · show ("BUILDMODE" : String) ≠ k
      intro heq
      rw [← heq] at hk
      exact absurd hk (by decide)
    · show ("XCFLAGS" : String) ≠ k
      intro heq
      rw [← heq] at hk
      exact absurd hk (by decide)
    · cases hF

/-- C1 witness: a mixed-presence build — only `TARGET_AR` set among the six
overrides, the other five absent — succeeds, and its output leaves the
`TARGET_AR` slot empty (while the absent slots are filled). -/
theorem c1_override_env_untouched_witness :
    envGet [("TARGET_SYS", "Linux"), ("STATIC_CC", "/bin/cc -O2"),
      ("TARGET_LD", "/bin/cc -O2"), ("TARGET_STRIP", "/bin/strip"),
      ("BUILDMODE", "static"), ("XCFLAGS", "-fPIC")] "TARGET_AR" = none :=
  c1_override_env_untouched
    ⟨"x86_64-unknown-linux-gnu",
      [("TARGET_AR", "myar"), ("CARGO_CFG_TARGET_POINTER_WIDTH", "64")],
      ⟨"cc", "-O2", false, true⟩, "cc",
      ⟨fun s => s == "/bin/strip", fun s => if s = "cc" then some "/bin/cc" else none⟩,
      false, false⟩
    [("TARGET_SYS", "Linux"), ("STATIC_CC", "/bin/cc -O2"),
      ("TARGET_LD", "/bin/cc -O2"), ("TARGET_STRIP", "/bin/strip"),
      ("BUILDMODE", "static"), ("XCFLAGS", "-fPIC")]
    rfl "TARGET_AR" (by decide) (by decide)

/-! ## C3: cross-prefix inference and the archiver lookup chain -/

theorem strExt (s t : String) (h : s.data = t.data) : s = t := by
  cases s; cases t; cases h; rfl

theorem strEndsWith_decomp (p suf : String) (h : strEndsWith p suf = true) :
    ∃ init : List Char, p.data = init ++ suf.data := by
  obtain ⟨t, ht⟩ := (strEndsWith_iff p suf).mp h
  exact ⟨t, ht.symm⟩

theorem endsWith_clang_not_gcc (p : String) (h : strEndsWith p "-clang" = true) :
    strEndsWith p "-gcc" = false := by
  cases hg : strEndsWith p "-gcc" with
  | false => rfl
  | true =>
    exfalso
    obtain ⟨i1, h1⟩ := strEndsWith_decomp p "-gcc" hg
    obtain ⟨i2, h2⟩ := strEndsWith_decomp p "-clang" h
    have hdata : i1 ++ "-gcc".data = i2 ++ "-clang".data := h1.symm.trans h2
    have hg4 : "-gcc".data = ['-', 'g', 'c', 'c'] := rfl
    have hc6 : "-clang".data = ['-', 'c', 'l', 'a', 'n', 'g'] := rfl
    rw [hg4, hc6] at hdata
    have e1 : i1 ++ ['-', 'g', 'c', 'c'] = (i1 ++ ['-', 'g', 'c']) ++ ['c'] := by simp
    have e2 : i2 ++ ['-', 'c', 'l', 'a', 'n', 'g'] =
        (i2 ++ ['-', 'c', 'l', 'a', 'n']) ++ ['g'] := by simp
    rw [e1, e2] at hdata
    have hlast := congrArg List.getLast? hdata
    rw [List.getLast?_concat, List.getLast?_concat] at hlast
    exact absurd (Option.some.inj hlast) (by decide)

theorem inferPfx_gcc (p : String) (h : strEndsWith p "-gcc" = true) :
    p = inferPfx p ++ "gcc" ∧ strEndsWith (inferPfx p) "-" = true := by
  obtain ⟨init, hinit⟩ := strEndsWith_decomp p "-gcc" h
  have hg4 : "-gcc".data = ['-', 'g', 'c', 'c'] := rfl
  rw [hg4] at hinit
  have hdrop : inferPfx p = ⟨init ++ ['-']⟩ := by
    rw [inferPfx, if_pos h, strDropRight]
    congr 1
    rw [hinit]
    have e1 : init ++ ['-', 'g', 'c', 'c'] = (init ++ ['-']) ++ ['g', 'c', 'c'] := by simp
    rw [e1, List.length_append]
    have e3 : (init ++ ['-']).length + (['g', 'c', 'c'] : List Char).length - 3 =
        (init ++ ['-']).length := by simp
    rw [e3, List.take_left]
  constructor
  · rw [hdrop]
    apply strExt
    rw [hinit]
    have hd : ((⟨init ++ ['-']⟩ : String) ++ "gcc").data = (init ++ ['-']) ++ ['g', 'c', 'c'] :=
      rfl
    rw [hd]
    simp
  · rw [hdrop, strEndsWith_iff]
    have hdd : ("-" : String).data = ['-'] := rfl
    rw [hdd]
    exact List.suffix_append init ['-']

theorem inferPfx_clang (p : String) (h : strEndsWith p "-clang" = true) :
    p = inferPfx p ++ "clang" ∧ strEndsWith (inferPfx p) "-" = true := by
  obtain ⟨init, hinit⟩ := strEndsWith_decomp p "-clang" h
  have hc6 : "-clang".data = ['-', 'c', 'l', 'a', 'n', 'g'] := rfl
  rw [hc6] at hinit
  have hng := endsWith_clang_not_gcc p h
  have hdrop : inferPfx p = ⟨init ++ ['-']⟩ := by
    rw [inferPfx, if_neg (by simp [hng]), if_pos h, strDropRight]
    congr 1
    rw [hinit]
    have e1 : init ++ ['-', 'c', 'l', 'a', 'n', 'g'] =
        (init ++ ['-']) ++ ['c', 'l', 'a', 'n', 'g'] := by simp
    rw [e1, List.length_append]
    have e3 : (init ++ ['-']).length + (['c', 'l', 'a', 'n', 'g'] : List Char).length - 5 =
        (init ++ ['-']).length := by simp
    rw [e3, List.take_left]
  constructor
  · rw [hdrop]
    apply strExt
    rw [hinit]
    have hd : ((⟨init ++ ['-']⟩ : String) ++ "clang").data =
        (init ++ ['-']) ++ ['c', 'l', 'a', 'n', 'g'] := rfl
    rw [hd]
    simp
  · rw [hdrop, strEndsWith_iff]
    have hdd : ("-" : String).data = ['-'] := rfl
    rw [hdd]
    exact List.suffix_append init ['-']

/-- C3: a compiler path ending in "-gcc" (resp. "-clang") is split into a
cross-prefix that keeps the dash (so "arm-linux-gnueabihf-gcc" yields
"arm-linux-gnueabihf-"); the archiver lookup tries, in order, prefix+"ar"
beside the compiler, "llvm-ar" there for Clang-like compilers, "ar" there
for GNU-like compilers, then a search-path lookup of prefix+"ar"; on the
successful resolver path the chosen archiver is set as `TARGET_AR` suffixed
with " rcus", and an empty chain is a fatal panic. -/
theorem c3_cross_prefix_archiver :
    inferPfx "arm-linux-gnueabihf-gcc" = "arm-linux-gnueabihf-" ∧
    (∀ p : String, strEndsWith p "-gcc" = true →
      p = inferPfx p ++ "gcc" ∧ strEndsWith (inferPfx p) "-" = true) ∧
    (∀ p : String, strEndsWith p "-clang" = true →
      p = inferPfx p ++ "clang" ∧ strEndsWith (inferPfx p) "-" = true) ∧
    (∀ (sys : SysModel) (ci : CompilerInfo) (bindir pfx : String),
      (sys.isFile (pjoin bindir (pfx ++ "ar")) = true →
        findAr sys ci bindir pfx = some (pjoin bindir (pfx ++ "ar"))) ∧
      (sys.isFile (pjoin bindir (pfx ++ "ar")) = false → ci.isLikeClang = true →
        sys.isFile (pjoin bindir "llvm-ar") = true →
        findAr sys ci bindir pfx = some (pjoin bindir "llvm-ar")) ∧
      (sys.isFile (pjoin bindir (pfx ++ "ar")) = false →
        (ci.isLikeClang = true → sys.isFile (pjoin bindir "llvm-ar") = false) →
        ci.isLikeGnu = true → sys.isFile (pjoin bindir "ar") = true →
        findAr sys ci bindir pfx = some (pjoin bindir "ar")) ∧
      (sys.isFile (pjoin bindir (pfx ++ "ar")) = false →
        (ci.isLikeClang = true → sys.isFile (pjoin bindir "llvm-ar") = false) →
        (ci.isLikeGnu = true → sys.isFile (pjoin bindir "ar") = false) →
        findAr sys ci bindir pfx = sys.whichLookup (pfx ++ "ar"))) ∧
    (∀ (i : UnixInputs) (l : List (String × String)) (resolved : String),
      envGet i.callerEnv "TARGET_AR" = none →
      i.sys.whichLookup i.ci.path = some resolved →
      buildUnixEnv i = Except.ok l →
      ∃ ar, findAr i.sys i.ci (parentDir resolved) (inferPfx i.ci.path) = some ar ∧
        envGet l "TARGET_AR" = some (ar ++ " rcus")) ∧
    (∀ (i : UnixInputs) (tpw resolved : String),
      envGet i.callerEnv "CARGO_CFG_TARGET_POINTER_WIDTH" = some tpw →
      i.sys.whichLookup i.ci.path = some resolved →
      envGet i.callerEnv "TARGET_AR" = none →
      findAr i.sys i.ci (parentDir resolved) (inferPfx i.ci.path) = none →
      buildUnixEnv i = Except.error
        (BuildErr.panic ("cannot find " ++ inferPfx i.ci.path ++ "ar"))) := by
  refine ⟨by decide, inferPfx_gcc, inferPfx_clang, ?_, ?_, ?_⟩
  · intro sys ci bindir pfx
    refine ⟨?_, ?_, ?_, ?_⟩
    · intro h1
      rw [findAr, if_pos h1]
    · intro h1 h2 h3
      rw [findAr, if_neg (by simp [h1]), if_pos ⟨h2, h3⟩]
    · intro h1 h2 h3 h4
      rw [findAr, if_neg (by simp [h1]),
        if_neg fun hcon => absurd hcon.2 (by rw [h2 hcon.1]; simp), if_pos ⟨h3, h4⟩]
    · intro h1 h2 h3
      rw [findAr, if_neg (by simp [h1]),
        if_neg fun hcon => absurd hcon.2 (by rw [h2 hcon.1]; simp),
        if_neg fun hcon => absurd hcon.2 (by rw [h3 hcon.1]; simp)]
  · intro i l resolved habs hw hok
    obtain ⟨tpw', resolved', arL, stripL, hc', hw', ha', hs', hl⟩ :=
      buildUnixEnv_ok_decomp i l hok
    have hre : resolved = resolved' := Option.some.inj (hw.symm.trans hw')
    subst hre
    obtain ⟨ar, hfind, harL⟩ := arEnv_ok_value i _ _ arL habs ha'
    refine ⟨ar, hfind, ?_⟩
    subst hl harL
    have hb0 : envGet (targetEnvBase i.target i.callerEnv) "TARGET_AR" = none := by
      apply envGet_eq_none
      intro e he
      rcases targetEnvBase_keys i.target i.callerEnv e he with h1 | h1 <;> rw [h1] <;> decide
    have hhc0 : envGet (hostccEnv i tpw') "TARGET_AR" = none := by
      apply envGet_eq_none
      intro e he
      rw [hostccEnv_keys i tpw' e he]
      decide
    have hsc0 : envGet (staticCcEnv i resolved) "TARGET_AR" = none := by
      apply envGet_eq_none
      intro e he
      rw [staticCcEnv_keys i resolved e he]
      decide
    have hld0 : envGet (ldEnv i resolved) "TARGET_AR" = none := by
      apply envGet_eq_none
      intro e he
      rw [ldEnv_keys i resolved e he]
      decide
    rw [envGet_append_none _ _ _ hb0, envGet_append_none _ _ _ hhc0,
      envGet_append_none _ _ _ hsc0, envGet_append_none _ _ _ hld0]
    simp [envGet]
  · intro i tpw resolved hc hw habs hfind
    cases hres : buildUnixEnv i with
    | ok l =>
      exfalso
      obtain ⟨tpw', resolved', arL, stripL, hc', hw', ha', hs', hl⟩ :=
        buildUnixEnv_ok_decomp i l hres
      have hre : resolved = resolved' := Option.some.inj (hw.symm.trans hw')
      subst hre
      rw [arEnv_fatal i _ _ habs hfind] at ha'
      cases ha'
    | error e =>
      rcases buildUnixEnv_error_cases i e hres with ⟨hc0, _⟩ | ⟨tpw', _, hw0, _⟩ |
        ⟨tpw', resolved', hc', hw', haE⟩ | ⟨tpw', resolved', arL, hc', hw', haE, hsE⟩
      · rw [hc] at hc0; cases hc0
      · rw [hw] at hw0; cases hw0
      · have hre : resolved = resolved' := Option.some.inj (hw.symm.trans hw')
        subst hre
        rw [arEnv_fatal i _ _ habs hfind] at haE
        rw [← Except.error.inj haE]
      · have hre : resolved = resolved' := Option.some.inj (hw.symm.trans hw')
        subst hre
        rw [arEnv_fatal i _ _ habs hfind] at haE
        cases haE

/-- C3 witness: the prefix split at a concrete cross-compiler path, and the
archiver binding (with its " rcus" suffix) at a concrete successful build. -/
theorem c3_cross_prefix_archiver_witness :
    ("arm-linux-gnueabihf-gcc" : String) = inferPfx "arm-linux-gnueabihf-gcc" ++ "gcc" ∧
    (∃ ar, findAr ⟨fun s => s == "/bin/ar" || s == "/bin/strip",
        fun s => if s = "cc" then some "/bin/cc" else none⟩
        ⟨"cc", "-O2", false, true⟩ (parentDir "/bin/cc") (inferPfx "cc") = some ar ∧
      envGet [("TARGET_SYS", "Linux"), ("STATIC_CC", "/bin/cc -O2"),
        ("TARGET_LD", "/bin/cc -O2"), ("TARGET_AR", "/bin/ar rcus"),
        ("TARGET_STRIP", "/bin/strip"), ("BUILDMODE", "static"), ("XCFLAGS", "-fPIC")]
        "TARGET_AR" = some (ar ++ " rcus")) :=
  ⟨(c3_cross_prefix_archiver.2.1 "arm-linux-gnueabihf-gcc" (by decide)).1,
   c3_cross_prefix_archiver.2.2.2.2.1
     ⟨"x86_64-unknown-linux-gnu", [("CARGO_CFG_TARGET_POINTER_WIDTH", "64")],
       ⟨"cc", "-O2", false, true⟩, "cc",
       ⟨fun s => s == "/bin/ar" || s == "/bin/strip",
        fun s => if s = "cc" then some "/bin/cc" else none⟩, false, false⟩
     [("TARGET_SYS", "Linux"), ("STATIC_CC", "/bin/cc -O2"), ("TARGET_LD", "/bin/cc -O2"),
      ("TARGET_AR", "/bin/ar rcus"), ("TARGET_STRIP", "/bin/strip"),
      ("BUILDMODE", "static"), ("XCFLAGS", "-fPIC")]
     "/bin/cc" rfl rfl rfl⟩

end LuajitSrc
